import Mathlib

/-!
Verification development for the `ceph_check_role` Ansible module
(`library/ceph_check_role.py`).  The Python source is shallowly embedded:
pure functions become Lean functions, Python `dict`s become association
lists, Python exceptions (KeyError, ValueError, ZeroDivisionError,
unpacking errors) become `Option`/`none`, and Python `float` values —
which in this module are always exact dyadic/decimal rationals — are
modelled by an exact, non-normalising rational pair type `PyRat`
(interpreted into `ℚ` by `PyRat.toRat` for specification statements).

String primitives used by the source (`str.split`, `str.startswith`,
`str.upper`, `str.replace`, `str.join`, `int(...)`, `"{}".format`) are
modelled structurally over `List Char` so that every definition is
executable by kernel reduction.
-/

/-! ### Python string / number primitives -/

/-- Model of Python `str.startswith(p)`: the first `len(p)` characters of
`s` equal `p`. -/
def pyStartswith (s p : String) : Bool :=
  s.data.take p.data.length == p.data

/-- Split a character list on a single separator character; models Python
`str.split(sep)` for a one-character separator (every `split` in the
source uses `','` or `'.'`).  `[] ↦ [[]]`, matching `''.split(sep) == ['']`. -/
def splitOnChar (c : Char) : List Char → List (List Char)
  | [] => [[]]
  | x :: xs =>
    match splitOnChar c xs, x == c with
    | rest, true => [] :: rest
    | [], false => [[x]]
    | r :: rs, false => (x :: r) :: rs

/-- Model of Python `s.split(c)` for a one-character separator `c`. -/
def pySplit (s : String) (c : Char) : List String :=
  (splitOnChar c s.data).map String.mk

/-- Digit value of an ASCII character, `none` for non-digits. -/
def digitVal (ch : Char) : Option Nat :=
  if '0' ≤ ch ∧ ch ≤ '9' then some (ch.toNat - 48) else none

/-- Value of a non-empty list of decimal digits, `none` if any character
is not a digit. -/
def digitsVal : List Char → Option Nat
  | [] => none
  | [ch] => digitVal ch
  | ch :: rest => do
    let d ← digitVal ch
    let r ← digitsVal rest
    pure (d * (10 ^ rest.length) + r)

/-- Model of Python `int(s)`: an optional sign followed by decimal digits;
anything else raises `ValueError`, i.e. `none`. -/
def pyInt (s : String) : Option Int :=
  match s.data with
  | '-' :: rest => (digitsVal rest).map (fun n => -(n : Int))
  | '+' :: rest => (digitsVal rest).map (fun n => (n : Int))
  | l => (digitsVal l).map (fun n => (n : Int))

/-- ASCII decimal digit character for `n < 10`. -/
def digitChar (n : Nat) : Char := Char.ofNat (48 + n)

/-- Fuel-driven decimal digit expansion (fuel bounds the digit count). -/
def natToStrAux : Nat → Nat → List Char
  | 0, _ => []
  | fuel + 1, n =>
    if n < 10 then [digitChar n]
    else natToStrAux fuel (n / 10) ++ [digitChar (n % 10)]

/-- Decimal representation of a natural number, modelling Python `str(n)`. -/
def natToStr (n : Nat) : String := String.mk (natToStrAux (n + 1) n)

/-- Decimal representation of an integer, modelling Python `str(i)`. -/
def intToStr (i : Int) : String :=
  if i < 0 then "-" ++ natToStr i.natAbs else natToStr i.natAbs

/-- Model of Python `str.upper()` (ASCII, as used on host-bus strings). -/
def pyUpper (s : String) : String := String.mk (s.data.map Char.toUpper)

/-- Model of Python `d.replace('-', '_')` (single-character replacement,
the only use of `replace` in the source). -/
def pyReplaceDashUnderscore (s : String) : String :=
  String.mk (s.data.map (fun ch => if ch == '-' then '_' else ch))

/-- Model of Python `sep.join(parts)`. -/
def pyJoin (sep : String) : List String → String
  | [] => ""
  | [x] => x
  | x :: xs => x ++ sep ++ pyJoin sep xs

/-- Popcount of a natural number, fuel-driven (`bin(n).count('1')`). -/
def countOnesAux : Nat → Nat → Nat
  | 0, _ => 0
  | fuel + 1, n => if n = 0 then 0 else n % 2 + countOnesAux fuel (n / 2)

/-- Number of 1 bits in `n`, modelling Python `bin(n).count('1')`. -/
def countOnes (n : Nat) : Nat := countOnesAux n n

/-- Lexicographic comparison of character lists by code point; models the
ordering Python uses to compare strings in `sorted(...)`. -/
def charListLe : List Char → List Char → Bool
  | [], _ => true
  | _ :: _, [] => false
  | a :: as, b :: bs =>
    if a < b then true
    else if b < a then false
    else charListLe as bs

/-! ### Exact rationals standing in for Python floats

Every `float` produced by this module arises from integers by `+ - *`
and division by nonzero integers, so the values are exact rationals.
`PyRat` implements these operations by cross multiplication without
normalisation; `PyRat.toRat` interprets a `PyRat` in `ℚ`. -/

/-- Exact rational value of a Python float: `num / den` with `den > 0`,
not necessarily reduced. -/
structure PyRat where
  num : Int
  den : Nat
  den_pos : 0 < den

/-- Embed an integer. -/
def PyRat.ofInt (n : Int) : PyRat := ⟨n, 1, Nat.one_pos⟩

/-- Exact subtraction. -/
def PyRat.sub (a b : PyRat) : PyRat :=
  ⟨a.num * b.den - b.num * a.den, a.den * b.den, Nat.mul_pos a.den_pos b.den_pos⟩

/-- Exact addition. -/
def PyRat.add (a b : PyRat) : PyRat :=
  ⟨a.num * b.den + b.num * a.den, a.den * b.den, Nat.mul_pos a.den_pos b.den_pos⟩

/-- Exact multiplication. -/
def PyRat.mul (a b : PyRat) : PyRat :=
  ⟨a.num * b.num, a.den * b.den, Nat.mul_pos a.den_pos b.den_pos⟩

/-- Exact division by a positive natural number (every division performed
by the source divides by a positive integer constant or product). -/
def PyRat.divPos (a : PyRat) (d : Nat) (hd : 0 < d) : PyRat :=
  ⟨a.num, a.den * d, Nat.mul_pos a.den_pos hd⟩

/-- Strict comparison, by cross multiplication. -/
def PyRat.lt (a b : PyRat) : Bool :=
  a.num * (b.den : Int) < b.num * (a.den : Int)

/-- Absolute value (Python `abs`). -/
def PyRat.abs (a : PyRat) : PyRat := ⟨|a.num|, a.den, a.den_pos⟩

/-- Mathematical floor of a `PyRat` (`den` is positive, so `fdiv` is it). -/
def PyRat.floor (a : PyRat) : Int := a.num.fdiv a.den

/-- Interpretation of a `PyRat` as a rational number. -/
def PyRat.toRat (a : PyRat) : ℚ := (a.num : ℚ) / (a.den : ℚ)

/-! ### `human_bytes` (source lines 373–398) -/

/-- Round-half-to-even of an exact rational to an integer, the rounding
Python `"{:.{}f}".format` applies to these (exactly representable)
values. -/
def roundHalfEven (q : PyRat) : Int :=
  let f := q.floor
  let r := q.sub (PyRat.ofInt f)
  if r.lt ⟨1, 2, Nat.two_pos⟩ then f
  else if PyRat.lt ⟨1, 2, Nat.two_pos⟩ r then f + 1
  else if f % 2 = 0 then f else f + 1

/-- Model of Python `"{:.{prec}f}".format(q)` for the exact values this
module formats: round half to even at `prec` decimal places and print. -/
def formatFixed (q : PyRat) (prec : Nat) : String :=
  let n := roundHalfEven (q.mul (PyRat.ofInt ((10 : Int) ^ prec)))
  if prec = 0 then intToStr n
  else
    let frac := natToStr (n.natAbs % 10 ^ prec)
    intToStr (n / (10 : Int) ^ prec) ++ "." ++
      String.mk (List.replicate (prec - frac.data.length) '0') ++ frac

/-- Unit suffixes walked by `human_bytes` (`'Y'` is the fall-through). -/
def hb_units : List String := ["", "K", "M", "G", "T", "P", "E", "Z"]

/-- Loop of `human_bytes`: `prec` becomes 1 once `ptr > 4`; return when
`abs(bytes_in) < divisor`, else divide and continue; after the loop the
value is formatted with `'Y'` (at which point `prec` is 1). -/
def human_bytes_go (divisor : Nat) (hdiv : 0 < divisor) :
    PyRat → List String → Nat → String
  | q, [], _ => formatFixed q 1 ++ "Y"
  | q, u :: rest, ptr =>
    let prec := if ptr > 4 then 1 else 0
    if q.abs.lt (PyRat.ofInt divisor) then formatFixed q prec ++ u
    else human_bytes_go divisor hdiv (q.divPos divisor hdiv) rest (ptr + 1)

/-- Model of `human_bytes(bytes_in, mode)` (the source defaults `mode` to
`'bin'`; both in-module callers use that default). -/
def human_bytes (bytes_in : Int) (mode : String) : String :=
  if mode == "bin" then
    human_bytes_go 1024 (by decide) (PyRat.ofInt bytes_in) hb_units 0
  else
    human_bytes_go 1000 (by decide) (PyRat.ofInt bytes_in) hb_units 0

/-! ### Disk classifier `get_free_disks` (source lines 212–255) -/

/-- Disk attributes read by `get_free_disks` (one value of the ansible
`devices` dict).  `rotational` holds the integer value produced by
`int(disk['rotational'])`; `links_masters` is `disk['links']['masters']`. -/
structure Disk where
  removable : String
  partitions : List String
  holders : List String
  links_masters : List String
  rotational : Int
  host : String
deriving DecidableEq, Repr

/-- Guard chain of the `get_free_disks` loop body: `continue` on
removable / device-mapper / partitioned / held / RAID-member / USB disks,
then include when the rotational flag matches (the source re-tests
`partitions` there; kept verbatim). -/
def freeDiskKeep (rotational : Int) (disk_id : String) (disk : Disk) : Bool :=
  !(disk.removable == "1") &&
  !(pyStartswith disk_id "dm-") &&
  disk.partitions.isEmpty &&
  disk.holders.isEmpty &&
  disk.links_masters.isEmpty &&
  !(pyStartswith (pyUpper disk.host) "USB") &&
  (disk.rotational == rotational) &&
  disk.partitions.isEmpty

/-- Key order used by `OrderedDict(sorted(free.items()))`: lexicographic
comparison of the device-name keys. -/
def keyLe (a b : String × Disk) : Prop := charListLe a.1.data b.1.data = true

instance : DecidableRel keyLe :=
  fun a b => inferInstanceAs (Decidable (charListLe a.1.data b.1.data = true))

/-- Model of `get_free_disks(devices, rotational)`: filter the inventory
through the guard chain, then return the surviving entries sorted by
device name. -/
def get_free_disks (devices : List (String × Disk)) (rotational : Int) :
    List (String × Disk) :=
  List.insertionSort keyLe
    (devices.filter (fun p => freeDiskKeep rotational p.1 p.2))

/-! ### Network topology analyzer `get_network_info` (source lines 283–370) -/

/-- The `ipv4` sub-dict of a NIC fact (`address` / `network` / `netmask`
are indexed directly by the source, so they are modelled as present). -/
structure Ipv4Facts where
  address : String
  network : String
  netmask : String
deriving DecidableEq, Repr

/-- Per-NIC ansible facts, with `Option` for keys the source reads via
`.get` or whose direct indexing can raise `KeyError`. -/
structure NicFacts where
  type : Option String
  ipv4 : Option Ipv4Facts
  speed : Option Int
  slaves : Option (List String)
  interfaces : Option (List String)
deriving DecidableEq, Repr

/-- The slice of `ansible_facts` that `get_network_info` consumes: the
`interfaces` name list plus the per-NIC fact entries keyed by name. -/
structure NetFacts where
  interfaces : List String
  nics : List (String × NicFacts)
deriving DecidableEq, Repr

/-- Dict lookup `ansible_facts[nic_id]` (`none` models a missing key). -/
def lookupNic (facts : NetFacts) (nic_id : String) : Option NicFacts :=
  (facts.nics.find? (fun p => p.1 == nic_id)).map Prod.snd

/-- One subnet entry of the analyzer result. -/
structure SubnetInfo where
  devices : List String
  speed : Int
  count : Nat
  desc : String
  addr : String
deriving DecidableEq, Repr

/-- Analyzer result: discovered subnets plus per-subnet details. -/
structure NetworkInfo where
  subnets : List String
  subnet_details : List (String × SubnetInfo)
deriving DecidableEq, Repr

/-- Model of `netmask_to_cidr`: `sum(bin(int(x)).count('1') for x in
netmask.split('.'))`; `none` when some part is not an integer. -/
def netmask_to_cidr (netmask : String) : Option Nat :=
  ((pySplit netmask '.').mapM pyInt).map
    (fun parts => (parts.map (fun v => countOnes v.natAbs)).sum)

/-- NIC-type whitelist `valid_nics`. -/
def valid_nics : List String := ["ether", "bonding", "bridge", "infiniband"]

/-- Bridge-member accumulation loop: for each member, add the member's
bond slave count and bond speed, or a nested bridge's interface count
(no speed), or 1 for an ether member; direct indexing of the member's
facts can raise (`none`). -/
def bridgeFold (facts : NetFacts) : List String → Nat → Int → Option (Nat × Int)
  | [], count, speed => some (count, speed)
  | n :: rest, count, speed =>
    match lookupNic facts n with
    | none => none
    | some nf =>
      match nf.type with
      | none => none
      | some t =>
        if t == "bonding" then
          match nf.slaves, nf.speed with
          | some sl, some sp => bridgeFold facts rest (count + sl.length) (speed + sp)
          | _, _ => none
        else if t == "bridge" then
          match nf.interfaces with
          | some members => bridgeFold facts rest (count + members.length) speed
          | none => none
        else if t == "ether" then bridgeFold facts rest (count + 1) speed
        else bridgeFold facts rest count speed

/-- Per-type aggregation of `(devs, speed, count)` for one NIC with a
whitelisted type `t`. -/
def nicAggregate (facts : NetFacts) (nic_id : String) (nic : NicFacts)
    (t : String) : Option (List String × Int × Nat) :=
  if t == "ether" || t == "infiniband" then
    some ([nic_id], nic.speed.getD 0, 1)
  else if t == "bridge" then
    match nic.interfaces with
    | none => none
    | some members =>
      let devs := (members.filter (fun d => ! pyStartswith d "vnet")).map
        pyReplaceDashUnderscore
      (bridgeFold facts devs 0 0).map (fun p => (devs, p.2, p.1))
  else if t == "bonding" then
    match nic.slaves with
    | none => none
    | some sl =>
      let devs := sl.map pyReplaceDashUnderscore
      some (devs, nic.speed.getD 0, devs.length)
  else none

/-- Set-semantics insertion used for `subnets.add(net_str)`. -/
def setAdd (l : List String) (s : String) : List String :=
  if s ∈ l then l else l ++ [s]

/-- Python-dict assignment `subnet_details[net_str] = info`: replace an
existing key in place, else append (insertion order preserved). -/
def dictSet (m : List (String × SubnetInfo)) (k : String) (v : SubnetInfo) :
    List (String × SubnetInfo) :=
  if m.any (fun p => p.1 == k) then
    m.map (fun p => if p.1 == k then (k, v) else p)
  else m ++ [(k, v)]

/-- Decimal rendering of the exact value of `speed / (count * 1000)` for
the subnet descriptor string (an abstraction of Python float `repr`,
never consulted by any theorem): integer part, then up to six fractional
digits with trailing zeros dropped but at least one digit kept. -/
def ratDescStr (q : PyRat) : String :=
  let f := q.floor
  let fracDigits := fun (fuel : Nat) =>
    (Nat.rec (motive := fun _ => Int → List Char)
      (fun _ => [])
      (fun _ ih rem =>
        let rem10 := rem * 10
        let d := rem10.fdiv q.den
        if rem = 0 then [] else digitChar d.natAbs :: ih (rem10 - d * q.den))
      fuel : Int → List Char)
  let ds := fracDigits 6 (q.num - f * q.den)
  if ds.isEmpty then intToStr f ++ ".0"
  else intToStr f ++ "." ++ String.mk ds

/-- Loop body of `get_network_info` for one candidate NIC name: skip
missing entries, non-whitelisted types and NICs without `ipv4`; otherwise
compute the subnet key, add it to the subnet set, aggregate the
per-type details and write them into `subnet_details`. -/
def processNic (facts : NetFacts) (st : NetworkInfo) (nic_id : String) :
    Option NetworkInfo :=
  match lookupNic facts nic_id with
  | none => some st
  | some nic =>
    match nic.type with
    | none => some st
    | some t =>
      if ! valid_nics.contains t then some st
      else
        match nic.ipv4 with
        | none => some st
        | some cfg =>
          match netmask_to_cidr cfg.netmask with
          | none => none
          | some cidr =>
            let net_str := cfg.network ++ "/" ++ natToStr cidr
            match nicAggregate facts nic_id nic t with
            | none => none
            | some (devs, speed, count) =>
              let desc :=
                if h : speed ≠ 0 ∧ count ≠ 0 then
                  net_str ++ " (" ++ natToStr count ++ "x" ++
                    ratDescStr ((PyRat.ofInt speed).divPos (count * 1000)
                      (Nat.mul_pos (Nat.pos_of_ne_zero h.2) (by decide))) ++ "g)"
                else net_str
              some ⟨setAdd st.subnets net_str,
                dictSet st.subnet_details net_str
                  ⟨devs, speed, count, desc, cfg.address⟩⟩

/-- Fold of `processNic` over the candidate NIC names. -/
def netLoop (facts : NetFacts) : NetworkInfo → List String → Option NetworkInfo
  | st, [] => some st
  | st, nic :: rest =>
    match processNic facts st nic with
    | none => none
    | some st' => netLoop facts st' rest

/-- Model of `get_network_info(ansible_facts)`: drop NIC names starting
with `'lo'`, then process each remaining NIC.  `none` models an uncaught
exception (malformed netmask or missing member facts). -/
def get_network_info (facts : NetFacts) : Option NetworkInfo :=
  netLoop facts ⟨[], []⟩
    (facts.interfaces.filter (fun nic => ! pyStartswith nic "lo"))

/-! ### Rule engine `Checker` (source lines 463–644) -/

/-- The slice of the `summarize` output that `Checker` reads
(`host_details` in the source). -/
structure HostDetails where
  cpu_core_count : Int
  ram_mb : Int
  kernel : String
  distribution : String
  distribution_version : String
  hdd : List (String × Disk)
  ssd : List (String × Disk)
  network : NetworkInfo
deriving DecidableEq, Repr

/-- Result of the `os.statvfs('/var/lib')` call made by the monitor
free-space check, supplied as an explicit environment value. -/
structure Statvfs where
  f_bsize : Int
  f_bfree : Int
deriving DecidableEq, Repr

/-- Per-role requirement entry of the static `Checker.reqs` table
(`cpu` is a Python float — `.5` for osds — hence a `PyRat`). -/
structure RoleReq where
  cpu : PyRat
  ram : Int

/-- The static `Checker.reqs` table; unknown keys raise `KeyError`
(`none`). -/
def reqs : String → Option RoleReq
  | "os" => some ⟨PyRat.ofInt 2, 4096⟩
  | "osds" => some ⟨⟨1, 2, Nat.two_pos⟩, 3072⟩
  | "mons" => some ⟨PyRat.ofInt 2, 4096⟩
  | "mdss" => some ⟨PyRat.ofInt 2, 4096⟩
  | "rgws" => some ⟨PyRat.ofInt 4, 2048⟩
  | "iscsigws" => some ⟨PyRat.ofInt 4, 16384⟩
  | _ => none

/-- The static `Checker.fs_threshold` table: free-GB threshold and
severity by mode. -/
def fs_threshold : String → Option (Int × String)
  | "dev" => some (10, "warning")
  | "prod" => some (30, "error")
  | _ => none

/-- The static `Checker.osd_bandwidth` table. -/
def osd_bandwidth : String → Option Int
  | "hdd" => some 1000
  | "ssd" => some 5000
  | _ => none

/-- The `Checker` instance state after `__init__`: the constructor
arguments plus the derived `osd_count`, `osd_media` and `net_max`, and
the two mutable accumulator lists. -/
structure Checker where
  host_details : HostDetails
  osd_count : Nat
  osd_media : String
  roles : List String
  deployment_type : String
  mode : String
  flash_usage : String
  status_msgs : List String
  status_checks : List String
  net_max : Int
deriving DecidableEq, Repr

/-- Model of `Checker.__init__`: split the role string on commas, derive
`osd_count = max(len(hdd), len(ssd))` and
`osd_media = 'hdd' if len(hdd) > len(ssd) else 'ssd'`, and compute
`net_max = max(subnet speeds)` — Python `max` raises `ValueError` on an
empty sequence, so construction fails (`none`) when `subnet_details` is
empty. -/
def mkChecker (host_details : HostDetails) (roles : String)
    (deployment_type : String) (mode : String) (flash_usage : String) :
    Option Checker :=
  match (host_details.network.subnet_details.map (fun p => p.2.speed)) with
  | [] => none
  | s :: rest =>
    some
      { host_details := host_details
        osd_count := max host_details.hdd.length host_details.ssd.length
        osd_media :=
          if host_details.hdd.length > host_details.ssd.length then "hdd" else "ssd"
        roles := pySplit roles ','
        deployment_type := deployment_type
        mode := mode
        flash_usage := flash_usage
        status_msgs := []
        status_checks := []
        net_max := rest.foldl max s }

/-- Model of the `Checker.state` property: in dev mode `NOTOK` iff some
recorded message starts with `critical`; otherwise `NOTOK` iff some
message starts with `critical` or `error`. -/
def Checker.state (c : Checker) : String :=
  if c.mode == "dev" then
    if c.status_msgs.any (fun msg => pyStartswith msg "critical") then "NOTOK"
    else "OK"
  else
    if c.status_msgs.any
        (fun msg => pyStartswith msg "critical" || pyStartswith msg "error") then
      "NOTOK"
    else "OK"

/-- Messages added by `_check_collocation` (the `_add_check` bookkeeping
is handled uniformly by `checkLoop`). -/
def check_collocation_msgs (c : Checker) : List String :=
  let severity := if c.mode == "dev" then "warning" else "error"
  let num_roles := c.roles.length
  if num_roles > 1 then
    if c.deployment_type == "container" then []
    else if num_roles > 2 then
      [severity ++ ":Too many roles for RPM deployment mode"]
    else if c.roles.all (fun role => role == "osds" || role == "rgws") then []
    else
      [severity ++ ":Requested roles (" ++ pyJoin "," c.roles ++ ") may not coexist"]
  else []

/-- Messages added by `_check_osd`. -/
def check_osd_msgs (c : Checker) : List String :=
  if c.roles.contains "osds" && c.osd_count == 0 then
    ["critical:OSD role without any free disks"]
  else []

/-- Messages added by `_check_network`; the `osd_bandwidth` lookup is a
dict access, hence fallible in principle. -/
def check_network_msgs (c : Checker) : Option (List String) :=
  if ! c.roles.contains "osds" then some []
  else
    match osd_bandwidth c.osd_media with
    | none => none
    | some bw =>
      let optimum_bandwidth := (c.osd_count : Int) * bw
      if c.net_max < optimum_bandwidth then
        some ["warning:Network bandwith low for the number of potential OSDs"]
      else some []

/-- Messages added by `_check_cpu`: fold the per-role subtractions over
`reqs` (a `KeyError` on an unknown role is `none`), then compare with
the baseline `reqs['os']['cpu']`. -/
def check_cpu_msgs (c : Checker) : Option (List String) := do
  let available ← c.roles.foldlM
    (fun acc role => do
      let r ← reqs role
      pure (if role == "osds" then
        acc.sub ((PyRat.ofInt c.osd_count).mul r.cpu)
      else acc.sub r.cpu))
    (PyRat.ofInt c.host_details.cpu_core_count)
  let osr ← reqs "os"
  pure (if available.lt osr.cpu then ["error:#CPU\x27s too low"] else [])

/-- Messages added by `_check_rgw`. -/
def check_rgw_msgs (c : Checker) : List String :=
  if ! c.roles.contains "rgws" then []
  else if c.net_max < 10000 then
    ["warning:Network bandwidth low for rgw role"]
  else []

/-- Messages added by `_check_ram` (integer arithmetic throughout). -/
def check_ram_msgs (c : Checker) : Option (List String) := do
  let available ← c.roles.foldlM
    (fun acc role => do
      let r ← reqs role
      pure (if role == "osds" then acc - (c.osd_count : Int) * r.ram
        else acc - r.ram))
    c.host_details.ram_mb
  let osr ← reqs "os"
  pure (if available < osr.ram then ["error:RAM too low"] else [])

/-- Messages added by `_check_mon_freespace`: read the statvfs result
from the environment, compare `free_bytes / 1024**3` with the per-mode
threshold, and report at the per-mode severity. -/
def check_mon_freespace_msgs (c : Checker) (env : Statvfs) : Option (List String) :=
  if c.roles.contains "mons" then
    match fs_threshold c.mode with
    | none => none
    | some (free, severity) =>
      let free_bytes := env.f_bsize * env.f_bfree
      if ((PyRat.ofInt free_bytes).divPos (1024 ^ 3) (by decide)).lt
          (PyRat.ofInt free) then
        some [severity ++ ":Freespace on /var/lib is too low (<" ++
          intToStr free ++ "GB)"]
      else some []
  else some []

/-- Messages added by `_check_iscsi`: on RedHat compare
`major*10 + minor` of `distribution_version` with 80 / 75; elsewhere
compare `major*100 + minor` of the kernel version with 416.  The tuple
unpacking of `split('.')` and `int(...)` can raise (`none`). -/
def check_iscsi_msgs (c : Checker) : Option (List String) :=
  if c.roles.contains "iscsigws" then
    if c.host_details.distribution == "RedHat" then
      match pySplit c.host_details.distribution_version '.' with
      | [maj_v, min_v] =>
        match pyInt maj_v, pyInt min_v with
        | some a, some b =>
          let version_int := a * 10 + b * 1
          if version_int > 80 then some []
          else if version_int > 75 then some []
          else some ["critical:incompatible kernel version for iSCSI"]
        | _, _ => none
      | _ => none
    else
      match pySplit c.host_details.kernel '.' with
      | kern_v :: maj_v :: _ =>
        match pyInt kern_v, pyInt maj_v with
        | some a, some b =>
          let kernel_int := a * 100 + b
          if kernel_int ≥ 416 then some []
          else some ["critical:incompatible kernel version for iSCSI"]
        | _, _ => none
      | _ => none
  else some []

/-- The check methods in the order `analyse` discovers them (`dir()`
sorts bound-method names alphabetically), each paired with the name it
passes to `_add_check`. -/
def checkSpecs (env : Statvfs) :
    List (String × (Checker → Option (List String))) :=
  [("_check_collocation", fun c => some (check_collocation_msgs c)),
   ("_check_cpu", check_cpu_msgs),
   ("check iscsi gateway pre-reqs", check_iscsi_msgs),
   ("check mon freespace", fun c => check_mon_freespace_msgs c env),
   ("_check_network", check_network_msgs),
   ("_check_osd", fun c => some (check_osd_msgs c)),
   ("_check_ram", check_ram_msgs),
   ("_check_rgw", fun c => some (check_rgw_msgs c))]

/-- Run a list of checks in order: each invocation appends its check
name to `status_checks` and its messages to `status_msgs`; an uncaught
exception (`none`) aborts the evaluation. -/
def checkLoop : Checker → List (String × (Checker → Option (List String))) →
    Option Checker
  | c, [] => some c
  | c, (name, f) :: rest =>
    match f c with
    | none => none
    | some ms =>
      checkLoop
        { c with status_checks := c.status_checks ++ [name],
                 status_msgs := c.status_msgs ++ ms }
        rest

/-- Model of `Checker.analyse()`. -/
def analyse (c : Checker) (env : Statvfs) : Option Checker :=
  checkLoop c (checkSpecs env)

/-! ### Ordering instances for the disk-key sort -/

instance : IsTrans (String × Disk) keyLe where
  trans := by
    have key : ∀ as bs cs : List Char, charListLe as bs = true →
        charListLe bs cs = true → charListLe as cs = true := by
      intro as
      induction as with
      | nil => intro bs cs h1 h2; rfl
      | cons a as ih =>
        intro bs cs h1 h2
        cases bs with
        | nil => simp [charListLe] at h1
        | cons b bs =>
          cases cs with
          | nil => simp [charListLe] at h2
          | cons c cs =>
            simp only [charListLe] at h1 h2 ⊢
            rcases lt_trichotomy a b with hab | hab | hab
            · rcases lt_trichotomy b c with hbc | hbc | hbc
              · simp [lt_trans hab hbc]
              · subst hbc; simp [hab]
              · rw [if_neg (lt_asymm hbc), if_pos hbc] at h2; cases h2
            · subst hab
              rw [if_neg (lt_irrefl a), if_neg (lt_irrefl a)] at h1
              rcases lt_trichotomy a c with hac | hac | hac
              · simp [hac]
              · subst hac
                rw [if_neg (lt_irrefl a), if_neg (lt_irrefl a)] at h2 ⊢
                exact ih bs cs h1 h2
              · rw [if_neg (lt_asymm hac), if_pos hac] at h2; cases h2
            · rw [if_neg (lt_asymm hab), if_pos hab] at h1; cases h1
    intro x y z hxy hyz
    exact key _ _ _ hxy hyz

instance : IsTotal (String × Disk) keyLe where
  total := by
    have key : ∀ as bs : List Char,
        charListLe as bs = true ∨ charListLe bs as = true := by
      intro as
      induction as with
      | nil => intro bs; left; rfl
      | cons a as ih =>
        intro bs
        cases bs with
        | nil => right; rfl
        | cons b bs =>
          rcases lt_trichotomy a b with h | h | h
          · left; simp [charListLe, h]
          · subst h
            rcases ih bs with h' | h'
            · left; simp [charListLe, lt_irrefl, h']
            · right; simp [charListLe, lt_irrefl, h']
          · right; simp [charListLe, h]
    intro x y
    exact key x.1.data y.1.data

/-! ### Concrete fixtures used by witness theorems -/

/-- A small well-formed host-details value (one 1000-speed subnet). -/
def hdW : HostDetails :=
  { cpu_core_count := 8
    ram_mb := 16384
    kernel := "4.18.0"
    distribution := "CentOS"
    distribution_version := "8.2"
    hdd := []
    ssd := []
    network :=
      ⟨["10.0.0.0/24"],
        [("10.0.0.0/24", ⟨["eth0"], 1000, 1, "10.0.0.0/24 (1x1.0g)", "10.0.0.1"⟩)]⟩ }

/-- Host details whose network topology has zero subnets. -/
def hdE : HostDetails := { hdW with network := ⟨[], []⟩ }

/-- Statvfs environment: 1 MiB free on the monitor filesystem. -/
def envW : Statvfs := ⟨1024, 1024⟩

/-- A checker as `mkChecker hdW "mons" "rpm" "prod" "journal"` builds it. -/
def cW : Checker :=
  { host_details := hdW
    osd_count := 0
    osd_media := "ssd"
    roles := ["mons"]
    deployment_type := "rpm"
    mode := "prod"
    flash_usage := "journal"
    status_msgs := []
    status_checks := []
    net_max := 1000 }

/-- Dev-mode checker holding a single recorded `error` finding. -/
def cDev : Checker := { cW with mode := "dev", status_msgs := ["error:x"] }

/-- Prod-mode checker holding a single recorded `error` finding. -/
def cProd : Checker := { cW with mode := "prod", status_msgs := ["error:x"] }

/-- Checker requesting three roles on an rpm deployment in dev mode. -/
def cColl3 : Checker :=
  { cW with roles := ["osds", "mons", "rgws"], mode := "dev" }

/-- Checker requesting the iSCSI gateway on RedHat 7.4. -/
def cI74 : Checker :=
  { cW with roles := ["iscsigws"],
            host_details := { hdW with distribution := "RedHat",
                                       distribution_version := "7.4" } }

/-- Checker requesting the iSCSI gateway on RedHat 7.6. -/
def cI76 : Checker :=
  { cW with roles := ["iscsigws"],
            host_details := { hdW with distribution := "RedHat",
                                       distribution_version := "7.6" } }

/-- A free disk as the witness inventory describes it. -/
def dskW : Disk := ⟨"0", [], [], [], 1, "scsi"⟩

/-- A small disk inventory: two free spinners, one partitioned disk, one
device-mapper entry and one USB disk. -/
def devW : List (String × Disk) :=
  [("sdb", dskW), ("sda", dskW),
   ("sdc", ⟨"0", ["sdc1"], [], [], 1, "scsi"⟩),
   ("dm-0", dskW),
   ("sdu", ⟨"0", [], [], [], 1, "usb"⟩)]

/-- Network facts: loopback plus one ether NIC with ipv4 configuration. -/
def factsW : NetFacts :=
  ⟨["lo", "eth0"],
   [("eth0", ⟨some "ether",
              some ⟨"192.168.1.5", "192.168.1.0", "255.255.255.0"⟩,
              some 1000, none, none⟩)]⟩

/-! ### Helper lemmas -/

theorem string_data_inj {s t : String} (h : s.data = t.data) : s = t := by
  cases s; cases t; exact congrArg String.mk h

theorem PyRat.den_ne (a : PyRat) : ((a.den : ℚ)) ≠ 0 := by
  have := a.den_pos
  positivity

theorem PyRat.toRat_ofInt (n : Int) : (PyRat.ofInt n).toRat = (n : ℚ) := by
  unfold PyRat.ofInt PyRat.toRat
  norm_num

theorem PyRat.toRat_sub (a b : PyRat) : (a.sub b).toRat = a.toRat - b.toRat := by
  unfold PyRat.sub PyRat.toRat
  have ha := a.den_ne
  have hb := b.den_ne
  field_simp
  ring

theorem PyRat.toRat_mul (a b : PyRat) : (a.mul b).toRat = a.toRat * b.toRat := by
  unfold PyRat.mul PyRat.toRat
  have ha := a.den_ne
  have hb := b.den_ne
  field_simp

theorem PyRat.lt_iff (a b : PyRat) : a.lt b = true ↔ a.toRat < b.toRat := by
  unfold PyRat.lt PyRat.toRat
  rw [decide_eq_true_eq]
  have ha : (0 : ℚ) < (a.den : ℚ) := by exact_mod_cast a.den_pos
  have hb : (0 : ℚ) < (b.den : ℚ) := by exact_mod_cast b.den_pos
  rw [div_lt_div_iff₀ ha hb]
  constructor <;> intro h <;> exact_mod_cast h

theorem pyStartswith_render (sev d : String)
    (h : sev = "warning" ∨ sev = "error" ∨ sev = "critical") :
    pyStartswith (sev ++ ":" ++ d) "critical" = (sev == "critical") ∧
    pyStartswith (sev ++ ":" ++ d) "error" = (sev == "error") := by
  have hdata : ∀ p : String, pyStartswith (sev ++ ":" ++ d) p =
      ((sev.data ++ ":".data ++ d.data).take p.data.length == p.data) := by
    intro p
    unfold pyStartswith
    rw [String.data_append, String.data_append]
  rcases h with rfl | rfl | rfl
  · refine ⟨?_, ?_⟩
    · rw [hdata, List.take_append_of_le_length (by decide)]; decide
    · rw [hdata, List.take_append_of_le_length (by decide)]; decide
  · refine ⟨?_, ?_⟩
    · rw [hdata, List.take_append_eq_append_take]
      have h1 : List.take "critical".data.length ("error".data ++ ":".data) =
          "error:".data := by decide
      rw [h1]
      have hrhs : (("error" : String) == "critical") = false := by decide
      rw [hrhs, beq_eq_false_iff_ne]
      intro hcontra
      have h2 := congrArg (List.take 6) hcontra
      rw [List.take_append_eq_append_take] at h2
      have hlen : ("error:".data).length = 6 := by decide
      rw [hlen, Nat.sub_self, List.take_zero, List.append_nil] at h2
      exact absurd h2 (by decide)
    · rw [hdata, List.take_append_of_le_length (by decide)]; decide
  · refine ⟨?_, ?_⟩
    · rw [hdata, List.take_append_of_le_length (by decide)]; decide
    · rw [hdata, List.take_append_of_le_length (by decide)]; decide

theorem charListLe_iff_lex : ∀ as bs : List Char,
    charListLe as bs = true ↔ (as = bs ∨ List.Lex (· < ·) as bs) := by
  intro as
  induction as with
  | nil =>
    intro bs
    cases bs with
    | nil => exact ⟨fun _ => Or.inl rfl, fun _ => rfl⟩
    | cons b bs => exact ⟨fun _ => Or.inr List.Lex.nil, fun _ => rfl⟩
  | cons a as ih =>
    intro bs
    cases bs with
    | nil =>
      constructor
      · intro h; simp [charListLe] at h
      · rintro (h | h)
        · cases h
        · cases h
    | cons b bs =>
      simp only [charListLe]
      rcases lt_trichotomy a b with h | h | h
      · rw [if_pos h]
        constructor
        · intro _; exact Or.inr (List.Lex.rel h)
        · intro _; rfl
      · subst h
        rw [if_neg (lt_irrefl a), if_neg (lt_irrefl a)]
        rw [ih bs]
        constructor
        · rintro (rfl | hlex)
          · exact Or.inl rfl
          · exact Or.inr (List.Lex.cons hlex)
        · rintro (heq | hlex)
          · exact Or.inl (by injection heq)
          · cases hlex with
            | cons h' => exact Or.inr h'
            | rel h' => exact absurd h' (lt_irrefl a)
      · rw [if_neg (lt_asymm h), if_pos h]
        constructor
        · intro hc; cases hc
        · rintro (heq | hlex)
          · injection heq with h1 h2
            exact absurd h1.symm (ne_of_lt h)
          · cases hlex with
            | cons h' => exact absurd rfl (ne_of_lt h)
            | rel h' => exact absurd h' (lt_asymm h)

/-- C1: for every Checker whose recorded messages render a list of
findings `(severity, description)` with severities drawn from
warning/error/critical, the derived status is NOTOK in dev mode iff some
finding is critical, and in any other mode iff some finding is critical
or error; in each case status OK holds iff no such finding exists (so
warnings alone never produce NOTOK). -/
theorem state_mode_semantics (c : Checker) (findings : List (String × String))
    (hmsgs : c.status_msgs = findings.map (fun f => f.1 ++ ":" ++ f.2))
    (hsev : ∀ f ∈ findings, f.1 = "warning" ∨ f.1 = "error" ∨ f.1 = "critical") :
    (c.mode = "dev" →
      ((c.state = "NOTOK" ↔ ∃ f ∈ findings, f.1 = "critical") ∧
       (c.state = "OK" ↔ ¬ ∃ f ∈ findings, f.1 = "critical"))) ∧
    (c.mode ≠ "dev" →
      ((c.state = "NOTOK" ↔ ∃ f ∈ findings, (f.1 = "critical" ∨ f.1 = "error")) ∧
       (c.state = "OK" ↔ ¬ ∃ f ∈ findings, (f.1 = "critical" ∨ f.1 = "error")))) := by
  have key : ∀ (b : Bool) (P : Prop), (b = true ↔ P) →
      (((if b then "NOTOK" else "OK") = "NOTOK" ↔ P) ∧
       ((if b then "NOTOK" else "OK") = "OK" ↔ ¬ P)) := by
    intro b P h
    cases b <;> simp_all
  have hcrit : (c.status_msgs.any (fun msg => pyStartswith msg "critical")) = true ↔
      ∃ f ∈ findings, f.1 = "critical" := by
    rw [hmsgs, List.any_eq_true]
    constructor
    · rintro ⟨m, hm, hp⟩
      obtain ⟨f, hf, rfl⟩ := List.mem_map.mp hm
      rw [(pyStartswith_render f.1 f.2 (hsev f hf)).1] at hp
      exact ⟨f, hf, beq_iff_eq.mp hp⟩
    · rintro ⟨f, hf, hp⟩
      refine ⟨f.1 ++ ":" ++ f.2, List.mem_map.mpr ⟨f, hf, rfl⟩, ?_⟩
      rw [(pyStartswith_render f.1 f.2 (hsev f hf)).1]
      exact beq_iff_eq.mpr hp
  have hce : (c.status_msgs.any
        (fun msg => pyStartswith msg "critical" || pyStartswith msg "error")) = true ↔
      ∃ f ∈ findings, (f.1 = "critical" ∨ f.1 = "error") := by
    rw [hmsgs, List.any_eq_true]
    constructor
    · rintro ⟨m, hm, hp⟩
      obtain ⟨f, hf, rfl⟩ := List.mem_map.mp hm
      rw [Bool.or_eq_true, (pyStartswith_render f.1 f.2 (hsev f hf)).1,
        (pyStartswith_render f.1 f.2 (hsev f hf)).2] at hp
      exact ⟨f, hf, hp.imp beq_iff_eq.mp beq_iff_eq.mp⟩
    · rintro ⟨f, hf, hp⟩
      refine ⟨f.1 ++ ":" ++ f.2, List.mem_map.mpr ⟨f, hf, rfl⟩, ?_⟩
      rw [Bool.or_eq_true, (pyStartswith_render f.1 f.2 (hsev f hf)).1,
        (pyStartswith_render f.1 f.2 (hsev f hf)).2]
      exact hp.imp beq_iff_eq.mpr beq_iff_eq.mpr
  constructor
  · intro hmode
    have hmode' : (c.mode == "dev") = true := beq_iff_eq.mpr hmode
    unfold Checker.state
    rw [if_pos hmode']
    exact key _ _ hcrit
  · intro hmode
    have hmode' : (c.mode == "dev") = false := beq_eq_false_iff_ne.mpr hmode
    unfold Checker.state
    rw [if_neg (by simp [hmode'])]
    exact key _ _ hce

/-- Witness for C1: one `error` finding and no `critical` finding gives
status OK in dev mode and NOTOK in prod mode. -/
theorem state_mode_semantics_witness : cDev.state = "OK" ∧ cProd.state = "NOTOK" := by
  constructor
  · exact ((state_mode_semantics cDev [("error", "x")] (by decide)
      (by decide)).1 rfl).2.mpr (by decide)
  · exact ((state_mode_semantics cProd [("error", "x")] (by decide)
      (by decide)).2 (by decide)).1.mpr (by decide)

/-- C2 (amended): with more than one requested role, a containerized
deployment never yields a collocation finding; a non-containerized
deployment with more than two roles yields exactly the "too many roles"
finding (warning in dev mode, error otherwise); with exactly two roles
there is no finding iff every requested role lies in {osds, rgws}, and
otherwise exactly one finding naming the offending role combination; a
single requested role never yields a collocation finding. -/
theorem collocation_rules (c : Checker) :
    (c.roles.length ≤ 1 → check_collocation_msgs c = []) ∧
    (1 < c.roles.length → c.deployment_type = "container" →
      check_collocation_msgs c = []) ∧
    (c.deployment_type ≠ "container" → 2 < c.roles.length →
      check_collocation_msgs c =
        [(if c.mode == "dev" then "warning" else "error") ++
          ":Too many roles for RPM deployment mode"]) ∧
    (c.deployment_type ≠ "container" → c.roles.length = 2 →
      ((check_collocation_msgs c = [] ↔ ∀ r ∈ c.roles, r = "osds" ∨ r = "rgws") ∧
       (¬ (∀ r ∈ c.roles, r = "osds" ∨ r = "rgws") →
        check_collocation_msgs c =
          [(if c.mode == "dev" then "warning" else "error") ++
            ":Requested roles (" ++ pyJoin "," c.roles ++ ") may not coexist"]))) := by
  simp only [check_collocation_msgs]
  refine ⟨?_, ?_, ?_, ?_⟩
  · intro h1
    rw [if_neg (by omega)]
  · intro h1 h2
    rw [if_pos h1, if_pos (beq_iff_eq.mpr h2)]
  · intro hdep h2
    have hd : (c.deployment_type == "container") = false := beq_eq_false_iff_ne.mpr hdep
    rw [if_pos (by omega), if_neg (by simp [hd]), if_pos h2]
  · intro hdep h2
    have hd : (c.deployment_type == "container") = false := beq_eq_false_iff_ne.mpr hdep
    rw [if_pos (by omega), if_neg (by simp [hd]), if_neg (by omega)]
    cases hall : c.roles.all (fun role => role == "osds" || role == "rgws") with
    | true =>
      rw [if_pos rfl]
      have hforall : ∀ r ∈ c.roles, r = "osds" ∨ r = "rgws" := by
        intro r hr
        have h := List.all_eq_true.mp hall r hr
        simpa using h
      exact ⟨⟨fun _ => hforall, fun _ => rfl⟩, fun hn => absurd hforall hn⟩
    | false =>
      rw [if_neg (by simp)]
      have hnot : ¬ ∀ r ∈ c.roles, r = "osds" ∨ r = "rgws" := by
        intro hfa
        have hx : c.roles.all (fun role => role == "osds" || role == "rgws") = true := by
          rw [List.all_eq_true]
          intro r hr
          rcases hfa r hr with rfl | rfl <;> decide
        rw [hall] at hx
        cases hx
      exact ⟨⟨fun hmsg => absurd hmsg (by simp), fun hfa => absurd hfa hnot⟩,
        fun _ => rfl⟩

/-- C2 counterexample: the role string `osds,osds` on an rpm deployment
requests exactly two roles whose pair is not {osds, rgws}, yet the
collocation check emits no finding — refuting the claim that two roles
are allowed only when the pair is exactly {osds, rgws}. -/
theorem collocation_pair_counterexample :
    (mkChecker hdW "osds,osds" "rpm" "prod" "journal").map
        (fun c => (check_collocation_msgs c, c.roles)) =
      some ([], ["osds", "osds"]) ∧
    ¬ (["osds", "osds"] : List String).Perm ["osds", "rgws"] := by
  constructor
  · rfl
  · decide

/-- Witness for C2: three roles on an rpm deployment in dev mode yield
exactly the warning-severity "too many roles" finding. -/
theorem collocation_rules_witness :
    check_collocation_msgs cColl3 =
      ["warning:Too many roles for RPM deployment mode"] := by
  have h := (collocation_rules cColl3).2.2.1 (by decide) (by decide)
  rw [h]
  decide

/-- C3: when the iscsigws role is requested, on a RedHat distribution
with version string `major.minor` the check emits no finding iff
`major*10 + minor > 75`, and otherwise emits exactly the critical
incompatible-kernel finding; on any other distribution, with kernel
version `major.minor...`, no finding iff `major*100 + minor >= 416`;
when the role is not requested the check emits nothing. -/
theorem iscsi_version_gate (c : Checker) :
    ("iscsigws" ∈ c.roles → c.host_details.distribution = "RedHat" →
      ∀ v1 v2 a b, pySplit c.host_details.distribution_version '.' = [v1, v2] →
        pyInt v1 = some a → pyInt v2 = some b →
        check_iscsi_msgs c = some (if 75 < a * 10 + b then [] else
          ["critical:incompatible kernel version for iSCSI"])) ∧
    ("iscsigws" ∈ c.roles → c.host_details.distribution ≠ "RedHat" →
      ∀ v1 v2 rest a b, pySplit c.host_details.kernel '.' = v1 :: v2 :: rest →
        pyInt v1 = some a → pyInt v2 = some b →
        check_iscsi_msgs c = some (if 416 ≤ a * 100 + b then [] else
          ["critical:incompatible kernel version for iSCSI"])) ∧
    ("iscsigws" ∉ c.roles → check_iscsi_msgs c = some []) := by
  refine ⟨?_, ?_, ?_⟩
  · intro hrole hdist v1 v2 a b hsplit ha hb
    unfold check_iscsi_msgs
    rw [if_pos (List.elem_eq_true_of_mem hrole),
      if_pos (beq_iff_eq.mpr hdist), hsplit]
    dsimp only
    rw [ha, hb]
    dsimp only
    rcases lt_trichotomy 80 (a * 10 + b * 1) with h80 | h80 | h80
    · rw [if_pos h80, if_pos (by omega)]
    · rw [if_neg (by omega), if_pos (by omega), if_pos (by omega)]
    · rw [if_neg (by omega)]
      rcases lt_or_le 75 (a * 10 + b * 1) with h75 | h75
      · rw [if_pos h75, if_pos (by omega)]
      · rw [if_neg (by omega), if_neg (by omega)]
  · intro hrole hdist v1 v2 rest a b hsplit ha hb
    unfold check_iscsi_msgs
    have hd : (c.host_details.distribution == "RedHat") = false :=
      beq_eq_false_iff_ne.mpr hdist
    rw [if_pos (List.elem_eq_true_of_mem hrole), if_neg (by simp [hd]), hsplit]
    dsimp only
    rw [ha, hb]
    dsimp only
    rcases lt_or_le (a * 100 + b) 416 with h | h
    · rw [if_neg (by omega), if_neg (by omega)]
    · rw [if_pos (by omega), if_pos (by omega)]
  · intro hrole
    unfold check_iscsi_msgs
    rw [if_neg (by simpa using hrole)]

/-- Witness for C3: RedHat 7.4 yields the critical finding and RedHat
7.6 yields none. -/
theorem iscsi_version_gate_witness :
    check_iscsi_msgs cI74 =
      some ["critical:incompatible kernel version for iSCSI"] ∧
    check_iscsi_msgs cI76 = some [] := by
  constructor
  · have h := (iscsi_version_gate cI74).1 (by decide) rfl "7" "4" 7 4
      (by decide) (by decide) (by decide)
    rw [h]
    decide
  · have h := (iscsi_version_gate cI76).1 (by decide) rfl "7" "6" 7 6
      (by decide) (by decide) (by decide)
    rw [h]
    decide

/-- C4 counterexample: `human_bytes(0)` returns `"0"` (the first unit
suffix is the empty string), not `"0B"`, and `human_bytes(1536)` returns
`"2K"` (1.5 rounds half-to-even to 2 at 0 decimal places), not `"1K"`. -/
theorem human_bytes_claimed_values_false :
    human_bytes 0 "bin" ≠ "0B" ∧ human_bytes 1536 "bin" ≠ "1K" := by
  constructor <;> decide

/-- C4 (amended): the binary-mode byte formatter returns `"0"` for 0
(empty unit suffix and 0 decimal places), `"2K"` for 1536 (1536/1024 =
1.5 rounds half-to-even to 2 at 0 decimal places), and `"1.0P"` for
`2^50` (1 decimal place at peta scale). -/
theorem human_bytes_values :
    human_bytes 0 "bin" = "0" ∧ human_bytes 1536 "bin" = "2K" ∧
    human_bytes (2 ^ 50) "bin" = "1.0P" := by
  refine ⟨?_, ?_, ?_⟩ <;> decide

/-- C7: on construction, `osd_count` is the maximum of the free
rotational and free flash counts, and `osd_media` is `hdd` exactly when
the rotational count strictly exceeds the flash count, `ssd` otherwise —
in particular `ssd` on a tie. -/
theorem osd_count_media_derivation (hd : HostDetails) (roles dt mode fu : String)
    (c : Checker) (h : mkChecker hd roles dt mode fu = some c) :
    c.osd_count = max hd.hdd.length hd.ssd.length ∧
    c.osd_media = (if hd.ssd.length < hd.hdd.length then "hdd" else "ssd") ∧
    (hd.hdd.length = hd.ssd.length → c.osd_media = "ssd") := by
  unfold mkChecker at h
  split at h
  · cases h
  · cases h
    refine ⟨rfl, rfl, ?_⟩
    intro he
    simp [he]

/-- Witness for C7: a host with no free disks of either type gets
`osd_count = 0` and the tie-break media `ssd`. -/
theorem osd_count_media_derivation_witness :
    ∃ c, mkChecker hdW "mons" "rpm" "prod" "journal" = some c ∧
      c.osd_count = max hdW.hdd.length hdW.ssd.length ∧
      (hdW.hdd.length = hdW.ssd.length → c.osd_media = "ssd") := by
  cases hr : mkChecker hdW "mons" "rpm" "prod" "journal" with
  | none => exact absurd hr (by decide)
  | some c =>
    have h := osd_count_media_derivation hdW "mons" "rpm" "prod" "journal" c hr
    exact ⟨c, rfl, h.1, h.2.2⟩

/-- C8: constructing the rule engine from host details whose network
topology records zero subnets fails (the `max` over an empty speed
sequence raises), so no evaluation result is produced. -/
theorem empty_subnets_constructor_fails (hd : HostDetails)
    (roles dt mode fu : String) (h : hd.network.subnet_details = []) :
    mkChecker hd roles dt mode fu = none := by
  unfold mkChecker
  rw [h]
  rfl

/-- Witness for C8: concrete host details with an empty subnet map. -/
theorem empty_subnets_constructor_fails_witness :
    mkChecker hdE "mons" "rpm" "prod" "journal" = none :=
  empty_subnets_constructor_fails hdE "mons" "rpm" "prod" "journal" rfl

/-- C5: for every inventory and either media filter, the free-disk
result never contains a disk marked removable, a device-mapper entry, a
partitioned disk, a disk with holders or RAID-master links, or a disk
whose upper-cased host-bus string starts with USB; and the keys of the
result are in lexicographic order. -/
theorem free_disks_exclusions_sorted (devices : List (String × Disk))
    (rotational : Int) :
    (∀ p ∈ get_free_disks devices rotational,
       p.2.removable ≠ "1" ∧
       pyStartswith p.1 "dm-" = false ∧
       p.2.partitions = [] ∧
       p.2.holders = [] ∧
       p.2.links_masters = [] ∧
       pyStartswith (pyUpper p.2.host) "USB" = false) ∧
    ((get_free_disks devices rotational).map Prod.fst).Pairwise
      (fun a b => a = b ∨ List.Lex (· < ·) a.data b.data) := by
  constructor
  · intro p hp
    unfold get_free_disks at hp
    have hmem := (List.perm_insertionSort keyLe _).mem_iff.mp hp
    have hcond := (List.mem_filter.mp hmem).2
    unfold freeDiskKeep at hcond
    simp only [Bool.and_eq_true, Bool.not_eq_true', beq_eq_false_iff_ne,
      List.isEmpty_iff, beq_iff_eq] at hcond
    exact ⟨hcond.1.1.1.1.1.1.1, hcond.1.1.1.1.1.1.2, hcond.1.1.1.1.1.2,
      hcond.1.1.1.1.2, hcond.1.1.1.2, hcond.1.1.2⟩
  · have hs : List.Pairwise keyLe (get_free_disks devices rotational) := by
      unfold get_free_disks
      exact List.sorted_insertionSort keyLe _
    rw [List.pairwise_map]
    refine hs.imp ?_
    intro a b hab
    rcases (charListLe_iff_lex _ _).mp hab with heq | hlex
    · exact Or.inl (string_data_inj heq)
    · exact Or.inr hlex

/-- Witness for C5: in the concrete inventory `devW` the member
`("sda", dskW)` satisfies every exclusion property, and the returned
keys are sorted. -/
theorem free_disks_exclusions_sorted_witness :
    (dskW.removable ≠ "1" ∧
     pyStartswith "sda" "dm-" = false ∧
     dskW.partitions = [] ∧
     dskW.holders = [] ∧
     dskW.links_masters = [] ∧
     pyStartswith (pyUpper dskW.host) "USB" = false) ∧
    ((get_free_disks devW 1).map Prod.fst).Pairwise
      (fun a b => a = b ∨ List.Lex (· < ·) a.data b.data) := by
  have h := free_disks_exclusions_sorted devW 1
  exact ⟨h.1 ("sda", dskW) (by decide), h.2⟩

/-- C6: with every requested role present in the requirement table, the
CPU check subtracts `osd_count * 0.5` for the osd role and the flat
per-role CPU cost for every other role from the total core count, and
emits its error finding iff the remainder is below the 2-core OS
baseline; the RAM check does the same with per-role RAM costs
(`osd_count * 3072` for osds) against the 4096 MB baseline. -/
theorem cpu_ram_budget (c : Checker) (h : ∀ r ∈ c.roles, (reqs r).isSome) :
    (∃ ms, check_cpu_msgs c = some ms ∧
      (ms = ["error:#CPU\x27s too low"] ↔
        (c.host_details.cpu_core_count : ℚ) -
          (c.roles.map (fun role => if role = "osds" then (c.osd_count : ℚ) * (1 / 2)
            else ((reqs role).elim 0 (fun r => r.cpu.toRat)))).sum < 2) ∧
      (ms = [] ↔ ¬ ((c.host_details.cpu_core_count : ℚ) -
          (c.roles.map (fun role => if role = "osds" then (c.osd_count : ℚ) * (1 / 2)
            else ((reqs role).elim 0 (fun r => r.cpu.toRat)))).sum < 2))) ∧
    (∃ ms, check_ram_msgs c = some ms ∧
      (ms = ["error:RAM too low"] ↔
        c.host_details.ram_mb -
          (c.roles.map (fun role => if role = "osds" then (c.osd_count : Int) * 3072
            else ((reqs role).elim 0 RoleReq.ram))).sum < 4096) ∧
      (ms = [] ↔ ¬ (c.host_details.ram_mb -
          (c.roles.map (fun role => if role = "osds" then (c.osd_count : Int) * 3072
            else ((reqs role).elim 0 RoleReq.ram))).sum < 4096))) := by
  have cpuFold : ∀ (roles : List String) (init : PyRat),
      (∀ r ∈ roles, (reqs r).isSome) →
      ∃ v, roles.foldlM
          (fun acc role => do
            let r ← reqs role
            pure (if role == "osds" then
              acc.sub ((PyRat.ofInt c.osd_count).mul r.cpu)
            else acc.sub r.cpu)) init = some v ∧
        v.toRat = init.toRat -
          (roles.map (fun role => if role = "osds" then (c.osd_count : ℚ) * (1 / 2)
            else ((reqs role).elim 0 (fun r => r.cpu.toRat)))).sum := by
    intro roles
    induction roles with
    | nil => intro init _; exact ⟨init, rfl, by simp⟩
    | cons r rs ih =>
      intro init h0
      obtain ⟨rr, hrr⟩ := Option.isSome_iff_exists.mp (h0 r (by simp))
      rw [List.foldlM_cons]
      obtain ⟨v, hfold, hval⟩ := ih
        (if r == "osds" then init.sub ((PyRat.ofInt c.osd_count).mul rr.cpu)
          else init.sub rr.cpu)
        (fun x hx => h0 x (List.mem_cons_of_mem _ hx))
      refine ⟨v, ?_, ?_⟩
      · dsimp only
        rw [hrr]
        show (rs.foldlM _ _) = some v
        exact hfold
      · rw [hval, List.map_cons, List.sum_cons]
        cases hro : r == "osds" with
        | true =>
          have hr' : r = "osds" := beq_iff_eq.mp hro
          subst hr'
          have hrr' : rr = ⟨⟨1, 2, Nat.two_pos⟩, 3072⟩ :=
            Option.some.inj (hrr.symm.trans (rfl :
              reqs "osds" = some ⟨⟨1, 2, Nat.two_pos⟩, 3072⟩))
          subst hrr'
          rw [if_pos rfl, if_pos rfl, PyRat.toRat_sub, PyRat.toRat_mul,
            PyRat.toRat_ofInt]
          have hhalf : PyRat.toRat ⟨1, 2, Nat.two_pos⟩ = 1 / 2 := by
            unfold PyRat.toRat
            norm_num
          rw [hhalf]
          push_cast
          ring
        | false =>
          have hr' : r ≠ "osds" := by simpa using hro
          rw [if_neg (by simp [hro]), if_neg hr', PyRat.toRat_sub, hrr]
          show _ = init.toRat - (rr.cpu.toRat + _)
          ring
  have ramFold : ∀ (roles : List String) (init : Int),
      (∀ r ∈ roles, (reqs r).isSome) →
      roles.foldlM
          (fun acc role => do
            let r ← reqs role
            pure (if role == "osds" then acc - (c.osd_count : Int) * r.ram
              else acc - r.ram)) init =
        some (init -
          (roles.map (fun role => if role = "osds" then (c.osd_count : Int) * 3072
            else ((reqs role).elim 0 RoleReq.ram))).sum) := by
    intro roles
    induction roles with
    | nil => intro init _; simp
    | cons r rs ih =>
      intro init h0
      obtain ⟨rr, hrr⟩ := Option.isSome_iff_exists.mp (h0 r (by simp))
      rw [List.foldlM_cons]
      rw [hrr]
      show (rs.foldlM _ _) = _
      rw [ih _ (fun x hx => h0 x (List.mem_cons_of_mem _ hx))]
      congr 1
      rw [List.map_cons, List.sum_cons]
      cases hro : r == "osds" with
      | true =>
        have hr' : r = "osds" := beq_iff_eq.mp hro
        subst hr'
        have hrr' : rr = ⟨⟨1, 2, Nat.two_pos⟩, 3072⟩ :=
          Option.some.inj (hrr.symm.trans (rfl :
            reqs "osds" = some ⟨⟨1, 2, Nat.two_pos⟩, 3072⟩))
        subst hrr'
        rw [if_pos rfl, if_pos rfl]
        ring
      | false =>
        have hr' : r ≠ "osds" := by simpa using hro
        rw [if_neg (by simp [hro]), if_neg hr', hrr]
        show _ = init - (rr.ram + _)
        ring
  constructor
  · obtain ⟨v, hfold, hval⟩ :=
      cpuFold c.roles (PyRat.ofInt c.host_details.cpu_core_count) h
    have hmsgs : check_cpu_msgs c =
        some (if v.lt (PyRat.ofInt 2) then ["error:#CPU\x27s too low"] else []) := by
      unfold check_cpu_msgs
      rw [hfold]
      rfl
    have hcond : (v.lt (PyRat.ofInt 2) = true) ↔
        ((c.host_details.cpu_core_count : ℚ) -
          (c.roles.map (fun role => if role = "osds" then (c.osd_count : ℚ) * (1 / 2)
            else ((reqs role).elim 0 (fun r => r.cpu.toRat)))).sum < 2) := by
      rw [PyRat.lt_iff, PyRat.toRat_ofInt, hval, PyRat.toRat_ofInt]
      norm_num
    cases hb : v.lt (PyRat.ofInt 2) with
    | true =>
      rw [hb] at hmsgs
      simp only [if_pos] at hmsgs
      exact ⟨_, hmsgs, iff_of_true rfl (hcond.mp hb),
        iff_of_false (by simp) (not_not_intro (hcond.mp hb))⟩
    | false =>
      rw [hb] at hmsgs
      simp only [Bool.false_eq_true, if_false] at hmsgs
      refine ⟨_, hmsgs, iff_of_false (by simp) ?_, iff_of_true rfl ?_⟩
      · intro hc
        have := hcond.mpr hc
        rw [hb] at this
        cases this
      · intro hc
        have := hcond.mpr hc
        rw [hb] at this
        cases this
  · have hf := ramFold c.roles c.host_details.ram_mb h
    have hmsgs : check_ram_msgs c =
        some (if (c.host_details.ram_mb -
            (c.roles.map (fun role => if role = "osds" then (c.osd_count : Int) * 3072
              else ((reqs role).elim 0 RoleReq.ram))).sum) < 4096 then
          ["error:RAM too low"] else []) := by
      unfold check_ram_msgs
      rw [hf]
      rfl
    by_cases hb : (c.host_details.ram_mb -
        (c.roles.map (fun role => if role = "osds" then (c.osd_count : Int) * 3072
          else ((reqs role).elim 0 RoleReq.ram))).sum) < 4096
    · rw [if_pos hb] at hmsgs
      exact ⟨_, hmsgs, iff_of_true rfl hb, iff_of_false (by simp) (not_not_intro hb)⟩
    · rw [if_neg hb] at hmsgs
      exact ⟨_, hmsgs, iff_of_false (by simp) hb, iff_of_true rfl hb⟩

/-- Witness for C6: for the single role `mons` on an 8-core, 16384 MB
host both budget checks pass with no finding. -/
theorem cpu_ram_budget_witness :
    check_cpu_msgs cW = some [] ∧ check_ram_msgs cW = some [] := by
  obtain ⟨⟨ms1, hm1, _, hiff1⟩, ⟨ms2, hm2, _, hiff2⟩⟩ :=
    cpu_ram_budget cW (by decide)
  have hreq : reqs "mons" = some ⟨PyRat.ofInt 2, 4096⟩ := rfl
  constructor
  · rw [hm1]
    have : ms1 = [] := by
      rw [hiff1]
      rw [show cW.roles = ["mons"] from rfl]
      rw [show cW.host_details.cpu_core_count = (8 : Int) from rfl]
      simp [hreq, PyRat.toRat_ofInt]
      norm_num
    rw [this]
  · rw [hm2]
    have : ms2 = [] := by
      rw [hiff2]
      rw [show cW.roles = ["mons"] from rfl]
      rw [show cW.host_details.ram_mb = (16384 : Int) from rfl]
      simp [hreq]
    rw [this]

theorem checkLoop_uniform
    (L : List (String × (Checker → Option (List String))))
    (hL : ∀ p ∈ L, ∀ (c : Checker) (m k : List String),
      p.2 { c with status_msgs := m, status_checks := k } = p.2 c) :
    ∀ c : Checker,
      (∀ m k, checkLoop { c with status_msgs := m, status_checks := k } L = none) ∨
      (∃ d, ∀ m k, checkLoop { c with status_msgs := m, status_checks := k } L =
        some { c with status_msgs := m ++ d,
                      status_checks := k ++ L.map Prod.fst }) := by
  induction L with
  | nil =>
    intro c
    right
    refine ⟨[], fun m k => ?_⟩
    simp [checkLoop]
  | cons p rest ih =>
    intro c
    obtain ⟨name, f⟩ := p
    have hf : ∀ (c' : Checker) (m k : List String),
        f { c' with status_msgs := m, status_checks := k } = f c' :=
      fun c' m k => hL (name, f) (List.mem_cons_self _ _) c' m k
    have hrest : ∀ p ∈ rest, ∀ (c' : Checker) (m k : List String),
        p.2 { c' with status_msgs := m, status_checks := k } = p.2 c' :=
      fun p hp => hL p (List.mem_cons_of_mem _ hp)
    cases hm : f c with
    | none =>
      left
      intro m k
      show (match f { c with status_msgs := m, status_checks := k } with
        | none => none
        | some ms => checkLoop _ rest) = none
      rw [hf c m k, hm]
    | some ms =>
      rcases ih hrest c with hnone | ⟨d, hd⟩
      · left
        intro m k
        show (match f { c with status_msgs := m, status_checks := k } with
          | none => none
          | some ms => checkLoop _ rest) = none
        rw [hf c m k, hm]
        exact hnone (m ++ ms) (k ++ [name])
      · right
        refine ⟨ms ++ d, fun m k => ?_⟩
        show (match f { c with status_msgs := m, status_checks := k } with
          | none => none
          | some ms => checkLoop _ rest) = _
        rw [hf c m k, hm]
        have h2 := hd (m ++ ms) (k ++ [name])
        have h3 : ({ c with
                       status_msgs := (m ++ ms) ++ d,
                       status_checks := (k ++ [name]) ++ rest.map Prod.fst } :
                     Checker) =
                   { c with
                       status_msgs := m ++ (ms ++ d),
                       status_checks := k ++ (name :: rest.map Prod.fst) } := by
          rw [List.append_assoc, List.append_assoc]
          rfl
        exact h2.trans (congrArg some h3)

/-- C9: a successful `analyse` appends exactly the eight check names to
`status_checks` (so their count grows by 8) and some finding list `d` to
`status_msgs`; running `analyse` again on the result succeeds and
appends the same `d` again (duplicating every finding) and eight further
check entries. -/
theorem analyse_records_eight_checks (c c' : Checker) (env : Statvfs)
    (h : analyse c env = some c') :
    c'.status_checks = c.status_checks ++ (checkSpecs env).map Prod.fst ∧
    c'.status_checks.length = c.status_checks.length + 8 ∧
    ∃ d c'', c'.status_msgs = c.status_msgs ++ d ∧
      analyse c' env = some c'' ∧
      c''.status_msgs = c.status_msgs ++ d ++ d ∧
      c''.status_checks.length = c.status_checks.length + 16 := by
  have hL : ∀ p ∈ checkSpecs env, ∀ (c0 : Checker) (m k : List String),
      p.2 { c0 with status_msgs := m, status_checks := k } = p.2 c0 := by
    intro p hp
    simp only [checkSpecs, List.mem_cons, List.not_mem_nil, or_false] at hp
    rcases hp with rfl | rfl | rfl | rfl | rfl | rfl | rfl | rfl <;>
      exact fun c0 m k => rfl
  rcases checkLoop_uniform (checkSpecs env) hL c with hnone | ⟨d, hd⟩
  · have hc : analyse c env = none := hnone c.status_msgs c.status_checks
    rw [h] at hc
    cases hc
  · have h1 : analyse c env =
        some { c with status_msgs := c.status_msgs ++ d,
                      status_checks := c.status_checks ++ (checkSpecs env).map Prod.fst } :=
      hd c.status_msgs c.status_checks
    have hc' : c' = { c with
                        status_msgs := c.status_msgs ++ d,
                        status_checks :=
                          c.status_checks ++ (checkSpecs env).map Prod.fst } :=
      Option.some.inj (h.symm.trans h1)
    subst hc'
    refine ⟨rfl, ?_, d,
      { c with status_msgs := (c.status_msgs ++ d) ++ d,
               status_checks := (c.status_checks ++ (checkSpecs env).map Prod.fst) ++
                 (checkSpecs env).map Prod.fst },
      rfl, ?_, rfl, ?_⟩
    · simp [checkSpecs]
    · exact hd (c.status_msgs ++ d) (c.status_checks ++ (checkSpecs env).map Prod.fst)
    · simp [checkSpecs]

/-- Witness for C9: a concrete checker on which `analyse` succeeds, with
eight check entries recorded. -/
theorem analyse_records_eight_checks_witness :
    ∃ c', analyse cW envW = some c' ∧
      c'.status_checks.length = cW.status_checks.length + 8 := by
  cases hr : analyse cW envW with
  | none => exact absurd hr (by decide)
  | some c' => exact ⟨c', rfl, (analyse_records_eight_checks cW c' envW hr).2.1⟩

theorem setAdd_nodup (l : List String) (s : String) (h : l.Nodup) :
    (setAdd l s).Nodup := by
  unfold setAdd
  split
  · exact h
  · next hs => simp [List.nodup_append, h, hs]

theorem setAdd_mem (l : List String) (s x : String) :
    x ∈ setAdd l s ↔ x ∈ l ∨ x = s := by
  unfold setAdd
  split
  · next hs =>
    constructor
    · exact Or.inl
    · rintro (h | rfl)
      · exact h
      · exact hs
  · simp

theorem dictSet_keys_mem (m : List (String × SubnetInfo)) (k x : String)
    (v : SubnetInfo) :
    x ∈ (dictSet m k v).map Prod.fst ↔ x ∈ m.map Prod.fst ∨ x = k := by
  unfold dictSet
  split
  · next hk =>
    have hmm : ((m.map (fun p => if p.1 == k then (k, v) else p)).map Prod.fst) =
        m.map Prod.fst := by
      rw [List.map_map]
      apply List.map_congr_left
      intro p _
      by_cases hpk : p.1 = k
      · simp [hpk]
      · simp [hpk]
    rw [hmm]
    constructor
    · exact Or.inl
    · rintro (h | rfl)
      · exact h
      · rcases List.any_eq_true.mp hk with ⟨p, hp, hpk⟩
        exact List.mem_map.mpr ⟨p, hp, beq_iff_eq.mp hpk⟩
  · simp [List.map_append]

theorem processNic_shape (facts : NetFacts) (st st' : NetworkInfo)
    (nic_id : String) (h : processNic facts st nic_id = some st') :
    st' = st ∨ ∃ ns v, st' =
      ⟨setAdd st.subnets ns, dictSet st.subnet_details ns v⟩ := by
  unfold processNic at h
  split at h
  · exact Or.inl (Option.some.inj h).symm
  · split at h
    · exact Or.inl (Option.some.inj h).symm
    · split at h
      · exact Or.inl (Option.some.inj h).symm
      · split at h
        · exact Or.inl (Option.some.inj h).symm
        · split at h
          · cases h
          · split at h
            · cases h
            · exact Or.inr ⟨_, _, (Option.some.inj h).symm⟩

/-- C10: whenever the network topology analyzer produces a result, the
subnets list has no duplicates and its members are exactly the keys of
the subnet_details mapping. -/
theorem network_info_subnets_details_agree (facts : NetFacts) (r : NetworkInfo)
    (h : get_network_info facts = some r) :
    r.subnets.Nodup ∧
    (∀ s, s ∈ r.subnets ↔ s ∈ r.subnet_details.map Prod.fst) := by
  have inv : ∀ (nics : List String) (st st' : NetworkInfo),
      netLoop facts st nics = some st' →
      (st.subnets.Nodup ∧
        ∀ s, s ∈ st.subnets ↔ s ∈ st.subnet_details.map Prod.fst) →
      (st'.subnets.Nodup ∧
        ∀ s, s ∈ st'.subnets ↔ s ∈ st'.subnet_details.map Prod.fst) := by
    intro nics
    induction nics with
    | nil =>
      intro st st' h hP
      cases Option.some.inj h
      exact hP
    | cons n rest ih =>
      intro st st' h hP
      unfold netLoop at h
      cases hpn : processNic facts st n with
      | none => rw [hpn] at h; cases h
      | some st1 =>
        rw [hpn] at h
        refine ih st1 st' h ?_
        rcases processNic_shape facts st st1 n hpn with rfl | ⟨ns, v, rfl⟩
        · exact hP
        · constructor
          · exact setAdd_nodup _ _ hP.1
          · intro s
            rw [setAdd_mem]
            show _ ↔ s ∈ (dictSet st.subnet_details ns v).map Prod.fst
            rw [dictSet_keys_mem, hP.2 s]
  exact inv _ ⟨[], []⟩ r h ⟨List.nodup_nil, by simp⟩

/-- Witness for C10: on concrete facts with one configured ether NIC the
analyzer succeeds, its subnets list is duplicate-free and matches the
detail keys. -/
theorem network_info_subnets_details_agree_witness :
    ∃ r, get_network_info factsW = some r ∧ r.subnets.Nodup ∧
      (∀ s, s ∈ r.subnets ↔ s ∈ r.subnet_details.map Prod.fst) := by
  cases hr : get_network_info factsW with
  | none => exact absurd hr (by decide)
  | some r =>
    have h := network_info_subnets_details_agree factsW r hr
    exact ⟨r, rfl, h.1, h.2⟩
